import Mathlib

/-!
Verification development for the PyLX-16A leg-control scripts.

The definitions below are a shallow embedding of the Python sources
`moving_left_and_right_legs.py` and `dance.py`: Python dicts become
association lists kept in insertion order, angles become rationals,
hardware effects (servo move commands, sleeps, printed warnings) become
explicit effect traces, and wall-clock readings become an oracle
function supplying the successive values of the elapsed-time expression.
-/

namespace PyLX16A

attribute [local semireducible] Rat.ofScientific Rat.add Rat.mul Rat.inv Rat.sub


/-- Key of a Python dict as used by these scripts: integer servo ids or
string keyword-argument names. -/
inductive PyKey
  | int : Nat → PyKey
  | str : String → PyKey
deriving DecidableEq

/-- Angles in degrees, embedded as rationals. -/
abbrev Angle := ℚ

/-- A Python dict mapping servo key to angle: an association list in
insertion order with pairwise distinct keys. -/
abbrev Pose := List (PyKey × Angle)

/-- Servo id `LEFT_ANKLE = 40` (moving_left_and_right_legs.py line 22). -/
def LEFT_ANKLE : Nat := 40

/-- Servo id `LEFT_KNEE = 10` (line 23). -/
def LEFT_KNEE : Nat := 10

/-- Servo id `LEFT_HIP = 20` (line 24). -/
def LEFT_HIP : Nat := 20

/-- Servo id `RIGHT_ANKLE = 30` (line 27). -/
def RIGHT_ANKLE : Nat := 30

/-- Servo id `RIGHT_KNEE = 60` (line 28). -/
def RIGHT_KNEE : Nat := 60

/-- Servo id `RIGHT_HIP = 50` (line 29). -/
def RIGHT_HIP : Nat := 50

/-- The `NEUTRAL` standing pose dict (lines 33-40), in the literal's
insertion order. -/
def NEUTRAL : Pose :=
  [(PyKey.int LEFT_HIP, 215.3),
   (PyKey.int LEFT_KNEE, 123.6),
   (PyKey.int LEFT_ANKLE, 123.1),
   (PyKey.int RIGHT_HIP, 234.0),
   (PyKey.int RIGHT_KNEE, 107.3),
   (PyKey.int RIGHT_ANKLE, 177.4)]

/-- Python dict lookup `d[k]` (as an Option, `none` when the key is
absent). -/
def dlookup : Pose → PyKey → Option Angle
  | [], _ => none
  | (k', v) :: rest, k => if k' = k then some v else dlookup rest k

/-- Python membership test `k in d`. -/
def dmem (d : Pose) (k : PyKey) : Bool :=
  (dlookup d k).isSome

/-- Python dict assignment `d[k] = v`: updates in place when the key is
present (keeping its position), appends otherwise. -/
def dset : Pose → PyKey → Angle → Pose
  | [], k, v => [(k, v)]
  | (k', v') :: rest, k, v =>
      if k' = k then (k, v) :: rest else (k', v') :: dset rest k v

/-- One iteration of the delta-application loop in `pose_from_neutral`
(lines 110-112 and 114-116): `if sid in pose: pose[sid] = NEUTRAL[sid] + delta`. -/
def deltaStep (pose : Pose) (sd : PyKey × Angle) : Pose :=
  if dmem pose sd.1 then dset pose sd.1 ((dlookup NEUTRAL sd.1).getD 0 + sd.2) else pose

/-- `pose_from_neutral(deltas_dict=None, **deltas)` (lines 96-117): starts
from a copy of `NEUTRAL`; when `deltas_dict` is given, applies its entries;
otherwise applies the keyword arguments, whose keys are strings. -/
def pose_from_neutral (deltas_dict : Option (List (PyKey × Angle)))
    (kw : List (String × Angle)) : Pose :=
  match deltas_dict with
  | some ds => List.foldl deltaStep NEUTRAL ds
  | none => List.foldl (fun p sd => deltaStep p (PyKey.str sd.1, sd.2)) NEUTRAL kw

/-- The angle clamp applied inside `set_pose` (line 88):
`angle = max(0.0, min(240.0, angle))`. -/
def clampAngle (a : Angle) : Angle :=
  max 0 (min 240 a)

/-- The per-servo command loop of `set_pose` (lines 85-92): for each
`(sid, angle)` item, in order, clamp the angle and attempt the move; a
failure (modelled by the `busFails` oracle) is caught and recorded as a
printed warning. Returns the attempted `(sid, clamped angle)` commands and
the warned servo ids. -/
def issueMoves (busFails : PyKey → Bool) : Pose → List (PyKey × Angle) × List PyKey
  | [] => ([], [])
  | (sid, angle) :: rest =>
      let a := clampAngle angle
      let r := issueMoves busFails rest
      if busFails sid then ((sid, a) :: r.1, sid :: r.2) else ((sid, a) :: r.1, r.2)

/-- Observable effect of one `set_pose` call: the move commands attempted,
the warnings printed for caught per-servo failures, the unconditional
sleep in seconds, and the Python return value (`None`, embedded as `Unit`). -/
structure PoseEffect where
  attempts : List (PyKey × Angle)
  warnings : List PyKey
  sleepSec : ℚ
  ret : Unit

/-- `set_pose(pose, t_ms)` (lines 77-94): attempts a clamped move for every
item of `pose`, catching each per-servo failure, then unconditionally
sleeps `t_ms / 1000.0 + 0.05` seconds and returns `None`. -/
def set_pose (busFails : PyKey → Bool) (pose : Pose) (t_ms : ℚ) : PoseEffect :=
  let r := issueMoves busFails pose
  { attempts := r.1
    warnings := r.2
    sleepSec := t_ms / 1000 + 1 / 20
    ret := () }

/-- `LEFT_LEG_STEP_SEQUENCE` (lines 125-161): lift, swing, plant, then
return to `NEUTRAL`, with the right leg held at its neutral deltas. -/
def LEFT_LEG_STEP_SEQUENCE : List Pose :=
  [pose_from_neutral (some
     [(PyKey.int RIGHT_HIP, 0), (PyKey.int RIGHT_KNEE, 0), (PyKey.int RIGHT_ANKLE, 0),
      (PyKey.int LEFT_HIP, 0), (PyKey.int LEFT_KNEE, 50), (PyKey.int LEFT_ANKLE, -40)]) [],
   pose_from_neutral (some
     [(PyKey.int RIGHT_HIP, 0), (PyKey.int RIGHT_KNEE, 0), (PyKey.int RIGHT_ANKLE, 0),
      (PyKey.int LEFT_HIP, 0), (PyKey.int LEFT_KNEE, 30), (PyKey.int LEFT_ANKLE, -20)]) [],
   pose_from_neutral (some
     [(PyKey.int RIGHT_HIP, 0), (PyKey.int RIGHT_KNEE, 0), (PyKey.int RIGHT_ANKLE, 0),
      (PyKey.int LEFT_HIP, 0), (PyKey.int LEFT_KNEE, 10), (PyKey.int LEFT_ANKLE, 0)]) [],
   NEUTRAL]

/-- `RIGHT_LEG_STEP_SEQUENCE` (lines 165-201). -/
def RIGHT_LEG_STEP_SEQUENCE : List Pose :=
  [pose_from_neutral (some
     [(PyKey.int RIGHT_HIP, 0), (PyKey.int RIGHT_KNEE, 50), (PyKey.int RIGHT_ANKLE, -40),
      (PyKey.int LEFT_HIP, 0), (PyKey.int LEFT_KNEE, 0), (PyKey.int LEFT_ANKLE, 0)]) [],
   pose_from_neutral (some
     [(PyKey.int RIGHT_HIP, 0), (PyKey.int RIGHT_KNEE, 30), (PyKey.int RIGHT_ANKLE, -20),
      (PyKey.int LEFT_HIP, 0), (PyKey.int LEFT_KNEE, 0), (PyKey.int LEFT_ANKLE, 0)]) [],
   pose_from_neutral (some
     [(PyKey.int RIGHT_HIP, 0), (PyKey.int RIGHT_KNEE, 10), (PyKey.int RIGHT_ANKLE, 0),
      (PyKey.int LEFT_HIP, 0), (PyKey.int LEFT_KNEE, 0), (PyKey.int LEFT_ANKLE, 0)]) [],
   NEUTRAL]

/-- One observable step of a gait routine at the granularity of the Python
code in `walk` and `dance`: a `set_pose(p, t_ms)` call or an explicit
`time.sleep(sec)` call. -/
inductive Step
  | pose : Pose → ℚ → Step
  | pause : ℚ → Step
deriving DecidableEq

/-- Concatenation of the per-iteration traces over a list of iteration
indices (the body of a Python for-loop over keyframes/steps). -/
def concatMap (f : Nat → List Step) : List Nat → List Step
  | [] => []
  | n :: rest => f n ++ concatMap f rest

/-- The keyframe playback of one `walk` step iteration (lines 217-230):
even 0-indexed iterations play the left-leg sequence, odd ones the
right-leg sequence, each keyframe via `set_pose(keyframe, t_ms)`. -/
def walkStepTrace (t_ms : ℚ) (step_num : Nat) : List Step :=
  (if step_num % 2 = 0 then LEFT_LEG_STEP_SEQUENCE else RIGHT_LEG_STEP_SEQUENCE).map
    (fun kf => Step.pose kf t_ms)

/-- Trace of `walk(steps, t_ms)` (lines 203-235): neutral at 800 ms, sleep
0.5 s, the alternating step iterations, then a final `set_pose(NEUTRAL, 800)`
with no further sleep. -/
def walkTrace (steps : Nat) (t_ms : ℚ) : List Step :=
  [Step.pose NEUTRAL 800, Step.pause (1 / 2)]
    ++ concatMap (walkStepTrace t_ms) (List.range steps)
    ++ [Step.pose NEUTRAL 800]

/-- `HIP_SWAY_SEQUENCE` (lines 257-280). -/
def HIP_SWAY_SEQUENCE : List Pose :=
  [pose_from_neutral (some
     [(PyKey.int LEFT_HIP, -10), (PyKey.int RIGHT_HIP, -10), (PyKey.int LEFT_KNEE, 10),
      (PyKey.int RIGHT_KNEE, 10), (PyKey.int LEFT_ANKLE, 0), (PyKey.int RIGHT_ANKLE, 0)]) [],
   NEUTRAL,
   pose_from_neutral (some
     [(PyKey.int LEFT_HIP, 10), (PyKey.int RIGHT_HIP, 5), (PyKey.int LEFT_KNEE, 10),
      (PyKey.int RIGHT_KNEE, 10), (PyKey.int LEFT_ANKLE, 0), (PyKey.int RIGHT_ANKLE, 0)]) [],
   NEUTRAL]

/-- `HIP_CIRCLE_SEQUENCE` (lines 283-322). -/
def HIP_CIRCLE_SEQUENCE : List Pose :=
  [pose_from_neutral (some
     [(PyKey.int LEFT_HIP, 5), (PyKey.int RIGHT_HIP, 5), (PyKey.int LEFT_KNEE, 15),
      (PyKey.int RIGHT_KNEE, 15), (PyKey.int LEFT_ANKLE, -5), (PyKey.int RIGHT_ANKLE, -5)]) [],
   pose_from_neutral (some
     [(PyKey.int LEFT_HIP, 10), (PyKey.int RIGHT_HIP, -5), (PyKey.int LEFT_KNEE, 10),
      (PyKey.int RIGHT_KNEE, 10), (PyKey.int LEFT_ANKLE, 0), (PyKey.int RIGHT_ANKLE, 0)]) [],
   pose_from_neutral (some
     [(PyKey.int LEFT_HIP, -10), (PyKey.int RIGHT_HIP, -10), (PyKey.int LEFT_KNEE, 5),
      (PyKey.int RIGHT_KNEE, 5), (PyKey.int LEFT_ANKLE, 5), (PyKey.int RIGHT_ANKLE, 5)]) [],
   pose_from_neutral (some
     [(PyKey.int LEFT_HIP, -5), (PyKey.int RIGHT_HIP, 5), (PyKey.int LEFT_KNEE, 10),
      (PyKey.int RIGHT_KNEE, 10), (PyKey.int LEFT_ANKLE, 0), (PyKey.int RIGHT_ANKLE, 0)]) [],
   NEUTRAL]

/-- `HIP_LIFT_SEQUENCE` (lines 325-348). -/
def HIP_LIFT_SEQUENCE : List Pose :=
  [pose_from_neutral (some
     [(PyKey.int LEFT_HIP, 15), (PyKey.int RIGHT_HIP, -10), (PyKey.int LEFT_KNEE, 30),
      (PyKey.int RIGHT_KNEE, 5), (PyKey.int LEFT_ANKLE, -15), (PyKey.int RIGHT_ANKLE, 0)]) [],
   NEUTRAL,
   pose_from_neutral (some
     [(PyKey.int LEFT_HIP, -10), (PyKey.int RIGHT_HIP, 5), (PyKey.int LEFT_KNEE, 5),
      (PyKey.int RIGHT_KNEE, 30), (PyKey.int LEFT_ANKLE, 0), (PyKey.int RIGHT_ANKLE, -15)]) [],
   NEUTRAL]

/-- `DEEP_HIP_SEQUENCE` (lines 351-374). -/
def DEEP_HIP_SEQUENCE : List Pose :=
  [pose_from_neutral (some
     [(PyKey.int LEFT_HIP, -20), (PyKey.int RIGHT_HIP, -10), (PyKey.int LEFT_KNEE, 20),
      (PyKey.int RIGHT_KNEE, 15), (PyKey.int LEFT_ANKLE, -10), (PyKey.int RIGHT_ANKLE, 5)]) [],
   NEUTRAL,
   pose_from_neutral (some
     [(PyKey.int LEFT_HIP, -10), (PyKey.int RIGHT_HIP, -20), (PyKey.int LEFT_KNEE, 15),
      (PyKey.int RIGHT_KNEE, 20), (PyKey.int LEFT_ANKLE, 5), (PyKey.int RIGHT_ANKLE, -10)]) [],
   NEUTRAL]

/-- All poses appearing in the four dance phrase sequences, in program
order. -/
def allDancePoses : List Pose :=
  HIP_SWAY_SEQUENCE ++ HIP_CIRCLE_SEQUENCE ++ HIP_LIFT_SEQUENCE ++ DEEP_HIP_SEQUENCE

/-- The dispatch of one iteration of the dance loop for a given value of
`sequence_count` (lines 380-398): `sequence_num = sequence_count % 4`
selects Hip Sway (1), Hip Circle (2), Hip Lifts (3) or Deep Hips (0), and
every keyframe of the selected sequence is played at `t_ms`. -/
def danceIterationTrace (sequence_count : Nat) (t_ms : ℚ) : List Step :=
  (if sequence_count % 4 = 1 then HIP_SWAY_SEQUENCE
   else if sequence_count % 4 = 2 then HIP_CIRCLE_SEQUENCE
   else if sequence_count % 4 = 3 then HIP_LIFT_SEQUENCE
   else DEEP_HIP_SEQUENCE).map (fun kf => Step.pose kf t_ms)

/-- The dance phrase loop (lines 376-402), driven by a wall-clock oracle:
`elapsed k` is the value of the k-th evaluation of
`time.time() - start_time`. The while condition reads `elapsed idx`; after
a full phrase plays, the mid-loop break check reads `elapsed (idx + 1)`.
Returns `some (trace, final sequence_count, elapsed reading at exit)` when
the loop exits within `fuel` iterations, `none` otherwise. -/
def danceLoopRun (elapsed : Nat → ℚ) (duration_sec t_ms : ℚ)
    (idx sequence_count : Nat) : Nat → Option (List Step × Nat × ℚ)
  | 0 => none
  | fuel + 1 =>
      if elapsed idx < duration_sec then
        let count := sequence_count + 1
        let tr := danceIterationTrace count t_ms
        if duration_sec ≤ elapsed (idx + 1) then some (tr, count, elapsed (idx + 1))
        else
          match danceLoopRun elapsed duration_sec t_ms (idx + 2) count fuel with
          | none => none
          | some (tr2, n, e) => some (tr ++ tr2, n, e)
      else some ([], sequence_count, elapsed idx)

/-- Trace of `dance(duration_sec, t_ms)` (lines 240-407) under a wall-clock
oracle: the initial neutral settle, the phrase loop, then the final
`set_pose(NEUTRAL, 800)`. -/
def danceTrace (elapsed : Nat → ℚ) (duration_sec t_ms : ℚ) (fuel : Nat) :
    Option (List Step) :=
  match danceLoopRun elapsed duration_sec t_ms 0 0 fuel with
  | none => none
  | some (tr, _, _) =>
      some ([Step.pose NEUTRAL 800, Step.pause (1 / 2)] ++ tr ++ [Step.pose NEUTRAL 800])

/-- Outcome of the `dance(...)` call inside dance.py's `main`: a normal
return, a `KeyboardInterrupt` raised by user cancellation, or another
unexpected exception. -/
inductive GaitOutcome
  | normal : GaitOutcome
  | cancelled : GaitOutcome
  | fault : GaitOutcome
deriving DecidableEq

/-- Observable effect of running the dance.py script top to bottom:
the `set_pose(NEUTRAL, 800)` neutral commands issued after the gait (in
order, `true` = the command succeeded), whether the finally-block printed
its could-not-return-to-neutral warning, and whether any exception escapes
the script. -/
structure ScriptEffect where
  neutralCmds : List (Pose × ℚ × Bool)
  warnedNeutralFailure : Bool
  escalated : Bool
deriving DecidableEq

/-- dance.py (lines 15-80): connect, construct the servo handles, run
`dance`, then the `finally` block issues one `set_pose(NEUTRAL, 800)`
(warning on failure); when the gait raised `KeyboardInterrupt` or another
exception, the module-level handler catches it and issues a second
`set_pose(NEUTRAL, 800)`, silently swallowing its failure. `neutralOk n`
models whether the n-th post-gait neutral command succeeds. -/
def danceScriptRun (connectOk handlesOk : Bool) (gait : GaitOutcome)
    (neutralOk : Nat → Bool) : ScriptEffect :=
  if ¬connectOk then { neutralCmds := [], warnedNeutralFailure := false, escalated := false }
  else if ¬handlesOk then { neutralCmds := [], warnedNeutralFailure := false, escalated := false }
  else
    let first := (NEUTRAL, (800 : ℚ), neutralOk 0)
    match gait with
    | GaitOutcome.normal =>
        { neutralCmds := [first]
          warnedNeutralFailure := !neutralOk 0
          escalated := false }
    | GaitOutcome.cancelled =>
        { neutralCmds := [first, (NEUTRAL, (800 : ℚ), neutralOk 1)]
          warnedNeutralFailure := !neutralOk 0
          escalated := false }
    | GaitOutcome.fault =>
        { neutralCmds := [first, (NEUTRAL, (800 : ℚ), neutralOk 1)]
          warnedNeutralFailure := !neutralOk 0
          escalated := false }

/-- Canonical playback trace of `m` consecutive dance phrases starting
after `sequence_count` already-played phrases: phrase `sequence_count + 1`
first, each selected purely by its counter value. -/
def canonicalPhrases (sequence_count : Nat) (t_ms : ℚ) : Nat → List Step
  | 0 => []
  | m + 1 =>
      danceIterationTrace (sequence_count + 1) t_ms
        ++ canonicalPhrases (sequence_count + 1) t_ms m

/-- Trace of `walk` as the specification's words describe it, for
comparison with `walkTrace`: identical except that the final return to
neutral carries the same extended settle (800 ms command plus the extra
0.5 s pause) as the opening one. This definition follows the spec, not
the source. -/
def walkTraceClaimed (steps : Nat) (t_ms : ℚ) : List Step :=
  [Step.pose NEUTRAL 800, Step.pause (1 / 2)]
    ++ concatMap (walkStepTrace t_ms) (List.range steps)
    ++ [Step.pose NEUTRAL 800, Step.pause (1 / 2)]

/-- Bus oracle under which exactly the third servo of the `NEUTRAL` dict
(id 40, the left ankle) fails its move command. -/
def failsThirdServo : PyKey → Bool :=
  fun k => k == PyKey.int LEFT_ANKLE

/-- Bus oracle under which every move command succeeds. -/
def allServosOk : PyKey → Bool :=
  fun _ => false

/-! ### Dictionary lemmas -/

theorem dlookup_dset (p : Pose) (k : PyKey) (v : Angle) (k' : PyKey) :
    dlookup (dset p k v) k' = if k = k' then some v else dlookup p k' := by
  induction p with
  | nil =>
      simp only [dset, dlookup]
  | cons hd tl ih =>
      obtain ⟨k0, v0⟩ := hd
      by_cases h0 : k0 = k
      · subst h0
        by_cases h1 : k0 = k' <;> simp [dset, dlookup, h1]
      · by_cases h1 : k0 = k'
        · subst h1
          have hk : ¬(k = k0) := fun h => h0 h.symm
          simp [dset, dlookup, h0, hk, ih]
        · simp [dset, dlookup, h0, h1, ih]

theorem dmem_dset_of_mem (p : Pose) (k : PyKey) (v : Angle) (k' : PyKey)
    (h : dmem p k = true) : dmem (dset p k v) k' = dmem p k' := by
  rcases eq_or_ne k k' with rfl | hk
  · simp only [dmem, dlookup_dset, if_pos rfl, Option.isSome_some]
    exact h.symm
  · simp only [dmem, dlookup_dset, if_neg hk]

theorem dmem_deltaStep (p : Pose) (sd : PyKey × Angle) (k : PyKey) :
    dmem (deltaStep p sd) k = dmem p k := by
  unfold deltaStep
  by_cases h : dmem p sd.1
  · rw [if_pos h, dmem_dset_of_mem _ _ _ _ h]
  · rw [if_neg h]

theorem dmem_foldl_deltaStep (ds : List (PyKey × Angle)) :
    ∀ p k, dmem (List.foldl deltaStep p ds) k = dmem p k := by
  induction ds with
  | nil => intro p k; rfl
  | cons sd tl ih =>
      intro p k
      rw [List.foldl_cons, ih, dmem_deltaStep]

theorem deltaStep_lookup_ne (p : Pose) (sd : PyKey × Angle) (k : PyKey)
    (h : sd.1 ≠ k) : dlookup (deltaStep p sd) k = dlookup p k := by
  unfold deltaStep
  by_cases hm : dmem p sd.1
  · rw [if_pos hm, dlookup_dset, if_neg h]
  · rw [if_neg hm]

theorem dlookup_foldl_deltaStep_notin (ds : List (PyKey × Angle)) :
    ∀ p k, k ∉ ds.map Prod.fst →
      dlookup (List.foldl deltaStep p ds) k = dlookup p k := by
  induction ds with
  | nil => intro p k _; rfl
  | cons sd tl ih =>
      intro p k hk
      simp only [List.map_cons, List.mem_cons, not_or] at hk
      rw [List.foldl_cons, ih _ _ hk.2, deltaStep_lookup_ne _ _ _ (fun h => hk.1 h.symm)]

theorem deltaStep_lookup_self (p : Pose) (k : PyKey) (δ : Angle)
    (h : dmem p k = true) :
    dlookup (deltaStep p (k, δ)) k = some ((dlookup NEUTRAL k).getD 0 + δ) := by
  unfold deltaStep
  rw [if_pos h, dlookup_dset, if_pos rfl]

theorem dlookup_foldl_deltaStep_mem (ds : List (PyKey × Angle)) :
    ∀ p k δ, (k, δ) ∈ ds → (ds.map Prod.fst).Nodup → dmem p k = true →
      dlookup (List.foldl deltaStep p ds) k = some ((dlookup NEUTRAL k).getD 0 + δ) := by
  induction ds with
  | nil => intro p k δ hmem _ _; exact absurd hmem (List.not_mem_nil _)
  | cons sd tl ih =>
      intro p k δ hmem hnd hp
      simp only [List.map_cons, List.nodup_cons] at hnd
      rcases List.mem_cons.mp hmem with heq | htl
      · subst heq
        rw [List.foldl_cons]
        have hnotin : k ∉ tl.map Prod.fst := hnd.1
        rw [dlookup_foldl_deltaStep_notin _ _ _ hnotin, deltaStep_lookup_self _ _ _ hp]
      · rw [List.foldl_cons]
        exact ih _ _ _ htl hnd.2 (by rw [dmem_deltaStep]; exact hp)

theorem dmem_NEUTRAL_str (s : String) : dmem NEUTRAL (PyKey.str s) = false := by
  simp [dmem, NEUTRAL, dlookup]

theorem foldl_kw_deltaStep_id (kw : List (String × Angle)) :
    List.foldl (fun p sd => deltaStep p (PyKey.str sd.1, sd.2)) NEUTRAL kw = NEUTRAL := by
  induction kw with
  | nil => rfl
  | cons hd tl ih =>
      rw [List.foldl_cons]
      have hstep : deltaStep NEUTRAL (PyKey.str hd.1, hd.2) = NEUTRAL := by
        unfold deltaStep
        rw [if_neg (by rw [dmem_NEUTRAL_str]; exact Bool.false_ne_true)]
      rw [hstep, ih]

theorem foldl_deltaStep_filter (ds : List (PyKey × Angle)) :
    ∀ p, (∀ k, dmem p k = dmem NEUTRAL k) →
      List.foldl deltaStep p ds
        = List.foldl deltaStep p (ds.filter (fun sd => dmem NEUTRAL sd.1)) := by
  induction ds with
  | nil => intro p _; rfl
  | cons sd tl ih =>
      intro p hinv
      by_cases hm : dmem NEUTRAL sd.1 = true
      · have hfil : List.filter (fun sd => dmem NEUTRAL sd.1) (sd :: tl)
            = sd :: List.filter (fun sd => dmem NEUTRAL sd.1) tl := by
          simp [List.filter_cons, hm]
        rw [hfil, List.foldl_cons, List.foldl_cons]
        exact ih _ (fun k => by rw [dmem_deltaStep]; exact hinv k)
      · have hfil : List.filter (fun sd => dmem NEUTRAL sd.1) (sd :: tl)
            = List.filter (fun sd => dmem NEUTRAL sd.1) tl := by
          simp [List.filter_cons, hm]
        rw [hfil, List.foldl_cons]
        have hskip : deltaStep p sd = p := by
          unfold deltaStep
          rw [if_neg (by rw [hinv sd.1]; exact hm)]
        rw [hskip]
        exact ih _ hinv

/-! ### Pose player lemmas -/

theorem issueMoves_fst (busFails : PyKey → Bool) :
    ∀ p : Pose, (issueMoves busFails p).1 = p.map (fun sa => (sa.1, clampAngle sa.2)) := by
  intro p
  induction p with
  | nil => rfl
  | cons sa tl ih =>
      obtain ⟨sid, angle⟩ := sa
      by_cases h : busFails sid = true <;> simp [issueMoves, h, ih]

theorem issueMoves_snd (busFails : PyKey → Bool) :
    ∀ p : Pose, (issueMoves busFails p).2
      = (p.filter (fun sa => busFails sa.1)).map Prod.fst := by
  intro p
  induction p with
  | nil => rfl
  | cons sa tl ih =>
      obtain ⟨sid, angle⟩ := sa
      by_cases h : busFails sid = true <;> simp [issueMoves, List.filter_cons, h, ih]

/-! ### Walk trace lemmas -/

theorem walkStepTrace_length (t_ms : ℚ) (n : Nat) : (walkStepTrace t_ms n).length = 4 := by
  unfold walkStepTrace
  by_cases h : n % 2 = 0 <;> simp [h, LEFT_LEG_STEP_SEQUENCE, RIGHT_LEG_STEP_SEQUENCE]

theorem concatMap_walk_length (t_ms : ℚ) :
    ∀ l : List Nat, (concatMap (walkStepTrace t_ms) l).length = 4 * l.length := by
  intro l
  induction l with
  | nil => rfl
  | cons n tl ih =>
      simp only [concatMap, List.length_append, List.length_cons, ih, walkStepTrace_length]
      ring

/-! ### Dance loop lemmas -/

theorem danceLoopRun_spec (elapsed : Nat → ℚ) (duration_sec t_ms : ℚ) :
    ∀ fuel idx count tr n e,
      danceLoopRun elapsed duration_sec t_ms idx count fuel = some (tr, n, e) →
      count ≤ n ∧ tr = canonicalPhrases count t_ms (n - count) ∧ duration_sec ≤ e := by
  intro fuel
  induction fuel with
  | zero => intro idx count tr n e h; exact absurd h (by simp [danceLoopRun])
  | succ fuel ih =>
      intro idx count tr n e h
      unfold danceLoopRun at h
      by_cases h0 : elapsed idx < duration_sec
      · rw [if_pos h0] at h
        by_cases h1 : duration_sec ≤ elapsed (idx + 1)
        · rw [if_pos h1] at h
          simp only [Option.some.injEq, Prod.mk.injEq] at h
          obtain ⟨htr, hn, he⟩ := h
          subst htr hn he
          refine ⟨Nat.le_succ count, ?_, h1⟩
          have : count + 1 - count = 1 := by omega
          rw [this]
          simp [canonicalPhrases]
        · rw [if_neg h1] at h
          cases hrec : danceLoopRun elapsed duration_sec t_ms (idx + 2) (count + 1) fuel with
          | none => rw [hrec] at h; exact absurd h (by simp)
          | some r =>
              obtain ⟨tr2, n2, e2⟩ := r
              rw [hrec] at h
              simp only [Option.some.injEq, Prod.mk.injEq] at h
              obtain ⟨htr, hn, he⟩ := h
              subst htr hn he
              obtain ⟨hle, htr2, hde⟩ := ih _ _ _ _ _ hrec
              refine ⟨by omega, ?_, hde⟩
              have hcnt : n2 - count = (n2 - (count + 1)) + 1 := by omega
              rw [hcnt]
              simp only [canonicalPhrases]
              rw [htr2]
      · rw [if_neg h0] at h
        simp only [Option.some.injEq, Prod.mk.injEq] at h
        obtain ⟨htr, hn, he⟩ := h
        subst htr hn he
        exact ⟨Nat.le_refl _, by simp [canonicalPhrases], le_of_not_lt h0⟩

/-! ### Claim theorems -/

/-- C1 counterexample: with delta `{RIGHT_HIP: +10}` the composed angle is
`234.0 + 10 = 244`, while the claim's `clamp(base + delta, 0, 240)` would
give `240`, so `pose_from_neutral` does not clamp at composition time. -/
theorem pose_from_neutral_clamp_refuted :
    dlookup (pose_from_neutral (some [(PyKey.int RIGHT_HIP, 10)]) []) (PyKey.int RIGHT_HIP)
        = some 244
      ∧ clampAngle ((dlookup NEUTRAL (PyKey.int RIGHT_HIP)).getD 0 + 10) = 240
      ∧ (244 : ℚ) ≠ 240 := by
  refine ⟨by decide, by decide, by decide⟩

/-- C1 (amended): for every delta dict with distinct keys, every ServoId of
the delta present in the base `NEUTRAL` gets result angle
`NEUTRAL[id] + delta[id]` with no clamping (clamping happens later, at
dispatch time in `set_pose`), and every ServoId not mentioned by the delta
keeps its `NEUTRAL` angle unchanged. -/
theorem pose_from_neutral_adds_unclamped (ds : List (PyKey × Angle))
    (hnd : (ds.map Prod.fst).Nodup) :
    (∀ k δ, (k, δ) ∈ ds → dmem NEUTRAL k = true →
        dlookup (pose_from_neutral (some ds) []) k
          = some ((dlookup NEUTRAL k).getD 0 + δ))
      ∧ (∀ k, k ∉ ds.map Prod.fst →
          dlookup (pose_from_neutral (some ds) []) k = dlookup NEUTRAL k) := by
  constructor
  · intro k δ hmem hk
    simp only [pose_from_neutral]
    exact dlookup_foldl_deltaStep_mem ds NEUTRAL k δ hmem hnd hk
  · intro k hk
    simp only [pose_from_neutral]
    exact dlookup_foldl_deltaStep_notin ds NEUTRAL k hk

/-- Witness for the amended C1 at the concrete delta `{RIGHT_HIP: +10}`. -/
theorem pose_from_neutral_adds_unclamped_witness :
    (([(PyKey.int RIGHT_HIP, (10 : ℚ))].map Prod.fst).Nodup)
      ∧ dlookup (pose_from_neutral (some [(PyKey.int RIGHT_HIP, 10)]) [])
            (PyKey.int RIGHT_HIP)
          = some ((dlookup NEUTRAL (PyKey.int RIGHT_HIP)).getD 0 + 10) :=
  ⟨by decide,
   (pose_from_neutral_adds_unclamped [(PyKey.int RIGHT_HIP, 10)] (by decide)).1
     (PyKey.int RIGHT_HIP) 10 (by decide) (by decide)⟩

/-- C2 counterexample: `set_pose` returns Python `None` whether or not a
servo failed — the return value of the run where the third servo fails is
identical to the return value of the all-success run, so no returned
`PlayResult` marks the failed servo; the failure shows up only in the
printed warnings. -/
theorem set_pose_no_playresult_refuted :
    (set_pose failsThirdServo NEUTRAL 600).ret = (set_pose allServosOk NEUTRAL 600).ret
      ∧ (set_pose failsThirdServo NEUTRAL 600).warnings
          ≠ (set_pose allServosOk NEUTRAL 600).warnings :=
  ⟨rfl, by decide⟩

/-- C2 (amended): for every pose, bus-failure pattern and duration,
`set_pose` attempts a clamped move command for every servo of the pose
(failures never abort the remaining commands), records exactly the failed
servo ids as printed warnings, and sleeps `t_ms/1000 + 0.05` seconds
unconditionally (a settle margin of exactly 50 ms); in the 6-servo
scenario where exactly the third servo fails, all six commands are still
attempted, exactly that servo is warned about, and the sleep equals the
all-success sleep — but the failure is only printed, not returned. -/
theorem set_pose_fault_isolation :
    (∀ busFails (pose : Pose) (t_ms : ℚ),
        (set_pose busFails pose t_ms).attempts
            = pose.map (fun sa => (sa.1, clampAngle sa.2))
          ∧ (set_pose busFails pose t_ms).warnings
              = (pose.filter (fun sa => busFails sa.1)).map Prod.fst
          ∧ (set_pose busFails pose t_ms).sleepSec = t_ms / 1000 + 1 / 20)
      ∧ (set_pose failsThirdServo NEUTRAL 600).attempts.map Prod.fst
          = NEUTRAL.map Prod.fst
      ∧ (set_pose failsThirdServo NEUTRAL 600).warnings = [PyKey.int LEFT_ANKLE]
      ∧ (set_pose failsThirdServo NEUTRAL 600).sleepSec
          = (set_pose allServosOk NEUTRAL 600).sleepSec := by
  refine ⟨fun busFails pose t_ms => ⟨?_, ?_, rfl⟩, by decide, by decide, rfl⟩
  · simp [set_pose, issueMoves_fst]
  · simp [set_pose, issueMoves_snd]

/-- C3 counterexample: the trace of `walk(1, 500)` differs from the trace
the claim describes — the code's final return to neutral is a bare
`set_pose(NEUTRAL, 800)` with no trailing 0.5 s pause, so the run does not
end with the same extended settle it starts with. -/
theorem walk_final_settle_refuted :
    walkTrace 1 500 ≠ walkTraceClaimed 1 500
      ∧ (walkTrace 1 500).getLast? = some (Step.pose NEUTRAL 800)
      ∧ (walkTraceClaimed 1 500).getLast? = some (Step.pause (1 / 2)) := by
  refine ⟨by decide, by decide, by decide⟩

/-- C3 (amended): for every positive step count, `walk` first applies
`NEUTRAL` at 800 ms followed by the 0.5 s pause, then runs exactly
`steps` iterations — the left-leg sequence on even 0-indexed iterations
and the right-leg sequence on odd ones, each playing its 4 keyframes in
order at `t_ms` (4·steps keyframes in total) — and finally issues one
more `set_pose(NEUTRAL, 800)`, without the extra 0.5 s pause of the
opening settle. -/
theorem walk_structure (steps : Nat) (t_ms : ℚ) (hpos : 0 < steps) :
    walkTrace steps t_ms
        = [Step.pose NEUTRAL 800, Step.pause (1 / 2)]
            ++ concatMap (walkStepTrace t_ms) (List.range steps)
            ++ [Step.pose NEUTRAL 800]
      ∧ (∀ n, n % 2 = 0 →
          walkStepTrace t_ms n = LEFT_LEG_STEP_SEQUENCE.map (fun kf => Step.pose kf t_ms))
      ∧ (∀ n, n % 2 = 1 →
          walkStepTrace t_ms n = RIGHT_LEG_STEP_SEQUENCE.map (fun kf => Step.pose kf t_ms))
      ∧ LEFT_LEG_STEP_SEQUENCE.length = 4
      ∧ RIGHT_LEG_STEP_SEQUENCE.length = 4
      ∧ (concatMap (walkStepTrace t_ms) (List.range steps)).length = 4 * steps
      ∧ (walkTrace steps t_ms).getLast? = some (Step.pose NEUTRAL 800) := by
  refine ⟨rfl, ?_, ?_, rfl, rfl, ?_, ?_⟩
  · intro n h
    simp [walkStepTrace, h]
  · intro n h
    have h0 : ¬(n % 2 = 0) := by omega
    simp [walkStepTrace, h0]
  · rw [concatMap_walk_length]
    simp
  · show ([Step.pose NEUTRAL 800, Step.pause (1 / 2)]
        ++ concatMap (walkStepTrace t_ms) (List.range steps)
        ++ [Step.pose NEUTRAL 800]).getLast? = some (Step.pose NEUTRAL 800)
    rw [List.getLast?_concat]

/-- Witness for the amended C3 at `walk(6, 500)`. -/
theorem walk_structure_witness :
    0 < 6
      ∧ walkTrace 6 500
          = [Step.pose NEUTRAL 800, Step.pause (1 / 2)]
              ++ concatMap (walkStepTrace 500) (List.range 6)
              ++ [Step.pose NEUTRAL 800]
      ∧ (concatMap (walkStepTrace 500) (List.range 6)).length = 4 * 6 :=
  ⟨by decide, (walk_structure 6 500 (by decide)).1,
   (walk_structure 6 500 (by decide)).2.2.2.2.2.1⟩

/-- C4: whenever the dance loop terminates, its keyframe trace equals the
canonical round-robin playback determined solely by the phrase counter and
`t_ms` — independent of `duration_sec` and of the wall-clock readings —
and the phrase chosen for counter value `c` is fixed by `c % 4`:
1 = Hip Sway, 2 = Hip Circle, 3 = Hip Lift, 0 = Deep Hip, each phrase
playing every keyframe of its sequence at `t_ms`. -/
theorem dance_selection_round_robin (elapsed : Nat → ℚ) (duration_sec t_ms : ℚ)
    (fuel : Nat) (tr : List Step) (n : Nat) (e : ℚ)
    (h : danceLoopRun elapsed duration_sec t_ms 0 0 fuel = some (tr, n, e)) :
    tr = canonicalPhrases 0 t_ms n
      ∧ (∀ c, c % 4 = 1 → danceIterationTrace c t_ms
          = HIP_SWAY_SEQUENCE.map (fun kf => Step.pose kf t_ms))
      ∧ (∀ c, c % 4 = 2 → danceIterationTrace c t_ms
          = HIP_CIRCLE_SEQUENCE.map (fun kf => Step.pose kf t_ms))
      ∧ (∀ c, c % 4 = 3 → danceIterationTrace c t_ms
          = HIP_LIFT_SEQUENCE.map (fun kf => Step.pose kf t_ms))
      ∧ (∀ c, c % 4 = 0 → danceIterationTrace c t_ms
          = DEEP_HIP_SEQUENCE.map (fun kf => Step.pose kf t_ms)) := by
  obtain ⟨hle, htr, hd⟩ := danceLoopRun_spec elapsed duration_sec t_ms fuel 0 0 tr n e h
  refine ⟨by simpa using htr, ?_, ?_, ?_, ?_⟩
  all_goals intro c hc
  all_goals simp [danceIterationTrace, hc]

/-- Witness for C4: a concrete clock oracle under which exactly one phrase
plays; the first phrase is Hip Sway and counter 5 selects Hip Sway again. -/
theorem dance_selection_round_robin_witness :
    danceIterationTrace 1 400 = canonicalPhrases 0 400 1
      ∧ danceIterationTrace 5 400 = HIP_SWAY_SEQUENCE.map (fun kf => Step.pose kf 400) := by
  have h := dance_selection_round_robin (fun k => if k = 0 then 0 else 2) 2 400 1
      (danceIterationTrace 1 400) 1 2 (by decide)
  exact ⟨h.1, h.2.1 5 (by decide)⟩

/-- C5: the dance loop checks elapsed time only at phrase boundaries, so
every started phrase is played to completion (the trace is a concatenation
of whole phrases); when at least one phrase played, the elapsed reading at
loop exit is at least `duration_sec`; and the loop is always followed by a
final return to `NEUTRAL` at 800 ms, the last event of the dance trace. -/
theorem dance_phrase_boundary_timing (elapsed : Nat → ℚ) (duration_sec t_ms : ℚ)
    (fuel : Nat) (tr : List Step) (n : Nat) (e : ℚ)
    (h : danceLoopRun elapsed duration_sec t_ms 0 0 fuel = some (tr, n, e))
    (hn : 1 ≤ n) :
    duration_sec ≤ e
      ∧ tr = canonicalPhrases 0 t_ms n
      ∧ danceTrace elapsed duration_sec t_ms fuel
          = some ([Step.pose NEUTRAL 800, Step.pause (1 / 2)] ++ tr
              ++ [Step.pose NEUTRAL 800])
      ∧ ([Step.pose NEUTRAL 800, Step.pause (1 / 2)] ++ tr
          ++ [Step.pose NEUTRAL 800]).getLast? = some (Step.pose NEUTRAL 800) := by
  obtain ⟨hle, htr, hd⟩ := danceLoopRun_spec elapsed duration_sec t_ms fuel 0 0 tr n e h
  refine ⟨hd, by simpa using htr, ?_, ?_⟩
  · simp [danceTrace, h]
  · rw [List.getLast?_concat]

/-- Witness for C5: a concrete clock oracle reaching the 3-second budget
right after the first phrase. -/
theorem dance_phrase_boundary_timing_witness :
    (3 : ℚ) ≤ 3
      ∧ danceIterationTrace 1 500 = canonicalPhrases 0 500 1
      ∧ danceTrace (fun k => if k = 0 then 0 else 3) 3 500 1
          = some ([Step.pose NEUTRAL 800, Step.pause (1 / 2)] ++ danceIterationTrace 1 500
              ++ [Step.pose NEUTRAL 800])
      ∧ ([Step.pose NEUTRAL 800, Step.pause (1 / 2)] ++ danceIterationTrace 1 500
          ++ [Step.pose NEUTRAL 800]).getLast? = some (Step.pose NEUTRAL 800) :=
  dance_phrase_boundary_timing (fun k => if k = 0 then 0 else 3) 3 500 1
    (danceIterationTrace 1 500) 1 3 (by decide) (by decide)

/-- C6 counterexample: a delta referencing ServoId 99, which is absent from
the base, does not fail — `pose_from_neutral` returns `NEUTRAL` untouched
instead of raising an `InvalidServoId` error. -/
theorem pose_from_neutral_invalid_id_refuted :
    pose_from_neutral (some [(PyKey.int 99, 5)]) [] = NEUTRAL
      ∧ dmem NEUTRAL (PyKey.int 99) = false := by
  refine ⟨by decide, by decide⟩

/-- C6 (amended): ServoIds in the delta that are absent from the base are
silently skipped — the composition never fails: it equals composing only
the present ids, and the result's key set is exactly the base's key set. -/
theorem pose_from_neutral_skips_unknown_ids (ds : List (PyKey × Angle)) :
    pose_from_neutral (some ds) []
        = pose_from_neutral (some (ds.filter (fun sd => dmem NEUTRAL sd.1))) []
      ∧ (∀ k, dmem (pose_from_neutral (some ds) []) k = dmem NEUTRAL k) := by
  constructor
  · simp only [pose_from_neutral]
    exact foldl_deltaStep_filter ds NEUTRAL (fun k => rfl)
  · intro k
    simp only [pose_from_neutral]
    exact dmem_foldl_deltaStep ds NEUTRAL k

/-- C7 counterexample: in dance.py a `KeyboardInterrupt` during the gait
triggers the neutral command of `main`'s finally block, then propagates to
the module-level handler which issues a second neutral command — two
neutral-pose commands are issued, not exactly one. -/
theorem cancellation_single_neutral_refuted :
    (danceScriptRun true true GaitOutcome.cancelled (fun _ => true)).neutralCmds.length = 2
      ∧ (2 : Nat) ≠ 1 := by
  refine ⟨rfl, by decide⟩

/-- C7 (amended): for every outcome pattern of the neutral commands, a
cancelled session issues exactly two `set_pose(NEUTRAL, 800)` commands —
one from the finally block, whose failure is reported as a warning, and
one from the module-level interrupt handler, whose failure is silently
swallowed — and no exception escapes the script. -/
theorem cancellation_two_neutral_commands (neutralOk : Nat → Bool) :
    (danceScriptRun true true GaitOutcome.cancelled neutralOk).neutralCmds
        = [(NEUTRAL, 800, neutralOk 0), (NEUTRAL, 800, neutralOk 1)]
      ∧ (danceScriptRun true true GaitOutcome.cancelled neutralOk).escalated = false
      ∧ (danceScriptRun true true GaitOutcome.cancelled neutralOk).warnedNeutralFailure
          = !neutralOk 0 :=
  ⟨rfl, rfl, rfl⟩

/-- C8: the clamp used by `set_pose` equals `min(240, max(0, a))` for every
rational input, and it is idempotent. -/
theorem clampAngle_minmax_idempotent (a : Angle) :
    clampAngle a = min 240 (max 0 a) ∧ clampAngle (clampAngle a) = clampAngle a := by
  constructor
  · show max 0 (min 240 a) = min 240 (max 0 a)
    rw [max_min_distrib_left]
    norm_num
  · have h0 : 0 ≤ clampAngle a := le_max_left 0 _
    have h240 : clampAngle a ≤ 240 :=
      max_le (by norm_num) (min_le_left _ _)
    show max 0 (min 240 (clampAngle a)) = clampAngle a
    rw [min_eq_right h240, max_eq_right h0]

/-- C9: every angle stored in the four dance phrase sequences — the
composed `NEUTRAL + delta` values, before any clamping — already lies
within the servo range [0, 240]. -/
theorem dance_poses_within_range :
    ∀ p ∈ allDancePoses, ∀ sa ∈ p, 0 ≤ sa.2 ∧ sa.2 ≤ 240 := by
  decide

/-- Witness for C9 at the `NEUTRAL` keyframe of the Hip Sway sequence and
its left-hip entry. -/
theorem dance_poses_within_range_witness :
    NEUTRAL ∈ allDancePoses
      ∧ (PyKey.int LEFT_HIP, (215.3 : ℚ)) ∈ NEUTRAL
      ∧ 0 ≤ (215.3 : ℚ) ∧ (215.3 : ℚ) ≤ 240 := by
  have h := dance_poses_within_range NEUTRAL (by decide)
      (PyKey.int LEFT_HIP, (215.3 : ℚ)) (by decide)
  exact ⟨by decide, by decide, h.1, h.2⟩

/-- C10: calling `pose_from_neutral` with `deltas_dict=None` and only
keyword deltas returns `NEUTRAL` with no delta applied and without
raising, because the string keyword keys never match the integer ServoId
keys; and in every case (either path) the returned pose's key set equals
`NEUTRAL`'s key set. -/
theorem pose_from_neutral_kwargs_noop :
    (∀ kw : List (String × Angle), pose_from_neutral none kw = NEUTRAL)
      ∧ (∀ deltas_dict kw k,
          dmem (pose_from_neutral deltas_dict kw) k = dmem NEUTRAL k) := by
  constructor
  · intro kw
    simp only [pose_from_neutral]
    exact foldl_kw_deltaStep_id kw
  · intro dd kw k
    cases dd with
    | none =>
        simp only [pose_from_neutral]
        rw [foldl_kw_deltaStep_id]
    | some ds =>
        simp only [pose_from_neutral]
        exact dmem_foldl_deltaStep ds NEUTRAL k

end PyLX16A
